import Mathlib

/-!
Shallow embedding of the leetcode-agent repository (Python) in Lean 4.

The embedding models, record for record, the SQLite-backed store
(`src/database/db_manager.py`), the delivery coordinator
(`src/coordinator.py`), the scheduler job wrapper
(`src/scheduler/daily_scheduler.py`), the configuration gate
(`src/config.py`, `main.py`) and the response parser of the solve agent
(`src/agents/solve_agent.py`).

Conventions:
* SQLite tables become Lean lists of structures; AUTOINCREMENT ids are
  modelled with explicit `next_*_id` counters in the state.
* Python functions that can raise are modelled with `Except String`;
  a `try/except` block becomes a `match` on that result.
* External collaborators (Groq generation, SMTP delivery, fetch agent,
  the `ORDER BY RANDOM()` shuffle) are parameters of the batch run,
  collected in the `Env` structure.  Each collaborator oracle receives
  exactly the arguments the Python call site passes.
* Side effects that touch no state relevant to the claims (logging,
  welcome / confirmation emails) are dropped.
-/

/-- Python `str.lower()` (character-list based so that the kernel can
evaluate it). -/
def pyLower (s : String) : String :=
  String.mk (s.data.map Char.toLower)

/-- Python `str.strip()`: drop whitespace from both ends. -/
def pyStrip (s : String) : String :=
  String.mk
    (((s.data.dropWhile Char.isWhitespace).reverse.dropWhile Char.isWhitespace).reverse)

/-- Helper for `pySplitLines`. -/
def pySplitLinesGo : List Char → List Char → List String
  | [], acc => [String.mk acc.reverse]
  | c :: cs, acc =>
    if c == '\n' then String.mk acc.reverse :: pySplitLinesGo cs []
    else pySplitLinesGo cs (c :: acc)

/-- Python `content.split('\n')`. -/
def pySplitLines (s : String) : List String :=
  pySplitLinesGo s.data []

/-- Python `'\n'.join(lines)`. -/
def pyJoinLines : List String → String
  | [] => ""
  | [l] => l
  | l :: ls => l ++ "\n" ++ pyJoinLines ls

/-- `src/database/models.py`, dataclass `User` (timestamps dropped:
they feed no logic the claims mention). -/
structure User where
  id : Nat
  email : String
  preferred_language : String
  preferred_difficulty : String
  is_active : Bool
deriving DecidableEq

/-- `src/database/models.py`, dataclass `Problem` (text payload fields
beyond the title are dropped; `difficulty` drives all logic). -/
structure Problem where
  id : Nat
  title : String
  difficulty : String
deriving DecidableEq

/-- `src/database/models.py`, dataclass `Solution`. -/
structure Solution where
  problem_id : Nat
  language : String
  solution_code : String
  explanation : String
deriving DecidableEq

/-- A row of the `sent_problems` table
(`db_manager.py`, `_initialize` + schema, lines 98-110).
The schema declares `UNIQUE(user_id, problem_id)`. -/
structure SentProblem where
  user_id : Nat
  problem_id : Nat
  solution_language : String
  email_status : String
deriving DecidableEq

/-- The SQLite database state: `users`, `problems` and `sent_problems`
tables plus the AUTOINCREMENT counters. -/
structure DBState where
  users : List User
  problems : List Problem
  sent_problems : List SentProblem
  next_user_id : Nat
  next_problem_id : Nat
deriving DecidableEq

namespace DatabaseManager

/-- The UNIQUE key of a `sent_problems` row. -/
def ledgerKey (sp : SentProblem) : Nat × Nat :=
  (sp.user_id, sp.problem_id)

/-- `DatabaseManager.get_user_by_email`: `SELECT * FROM users WHERE email = ?`,
first row. -/
def get_user_by_email (db : DBState) (email : String) : Option User :=
  db.users.find? (fun u => u.email == email)

/-- `DatabaseManager.get_user_by_id`. -/
def get_user_by_id (db : DBState) (user_id : Nat) : Option User :=
  db.users.find? (fun u => u.id == user_id)

/-- `DatabaseManager.add_user` (db_manager.py lines 132-165):
`INSERT INTO users ...`; the UNIQUE constraint on `email` raises
`IntegrityError` when the address already exists, caught and turned
into `None`.  Returns the stored user and the new state. -/
def add_user (db : DBState) (email preferred_language preferred_difficulty : String) :
    DBState × Option User :=
  if db.users.any (fun u => u.email == email) then
    (db, none)
  else
    let u : User :=
      { id := db.next_user_id, email := email,
        preferred_language := preferred_language,
        preferred_difficulty := preferred_difficulty,
        is_active := true }
    ({ db with users := db.users ++ [u], next_user_id := db.next_user_id + 1 }, some u)

/-- `DatabaseManager.update_user_preferences` (lines 223-256): builds the
`UPDATE` list from the non-`None` arguments; with no update it returns
`False`, otherwise `cursor.rowcount > 0`, i.e. whether a row matched the
email.  (The coordinator always passes two non-empty strings, so Python
truthiness and `Option` agree at every call site modelled here.) -/
def update_user_preferences (db : DBState) (email : String)
    (preferred_language preferred_difficulty : Option String) : DBState × Bool :=
  if preferred_language.isNone && preferred_difficulty.isNone then
    (db, false)
  else
    let matched := db.users.any (fun u => u.email == email)
    ({ db with users := db.users.map (fun u =>
        if u.email == email then
          { u with
            preferred_language := preferred_language.getD u.preferred_language,
            preferred_difficulty := preferred_difficulty.getD u.preferred_difficulty }
        else u) },
     matched)

/-- `DatabaseManager.deactivate_user` (lines 258-275):
`UPDATE users SET is_active = 0 WHERE email = ?`, returns
`cursor.rowcount > 0`. -/
def deactivate_user (db : DBState) (email : String) : DBState × Bool :=
  ({ db with users := db.users.map (fun u =>
      if u.email == email then { u with is_active := false } else u) },
   db.users.any (fun u => u.email == email))

/-- `DatabaseManager.get_active_users` (lines 277-305):
`SELECT * FROM users WHERE is_active = 1`. -/
def get_active_users (db : DBState) : List User :=
  db.users.filter (fun u => u.is_active)

/-- `DatabaseManager.add_problem` (lines 308-336): `INSERT INTO problems ...`,
the stored row gets the AUTOINCREMENT id; returns `get_problem_by_id`
of the fresh id, i.e. the stored problem. -/
def add_problem (db : DBState) (p : Problem) : DBState × Option Problem :=
  let stored : Problem := { p with id := db.next_problem_id }
  ({ db with problems := db.problems ++ [stored],
             next_problem_id := db.next_problem_id + 1 },
   some stored)

/-- The candidate rows of `get_unsent_problem_for_user`'s query
(lines 365-400): problems of the requested difficulty whose id is in no
`sent_problems` row of this user (any `email_status`). -/
def unsentCandidates (db : DBState) (user_id : Nat) (difficulty : String) :
    List Problem :=
  db.problems.filter (fun p =>
    p.difficulty == difficulty &&
    !(db.sent_problems.any (fun sp =>
        sp.user_id == user_id && sp.problem_id == p.id)))

/-- `DatabaseManager.get_unsent_problem_for_user` (lines 365-400):
`... ORDER BY RANDOM() LIMIT 1`.  The random ordering is modelled by a
`shuffle` parameter; any permutation of the candidate rows is a
possible ordering, and the query returns its first row. -/
def get_unsent_problem_for_user (shuffle : List Problem → List Problem)
    (db : DBState) (user_id : Nat) (difficulty : String) : Option Problem :=
  (shuffle (unsentCandidates db user_id difficulty)).head?

/-- `DatabaseManager.mark_problem_sent` (lines 403-421):
`INSERT OR REPLACE INTO sent_problems (user_id, problem_id,
solution_language, email_status) VALUES (?,?,?,?)`.  SQLite resolves the
`UNIQUE(user_id, problem_id)` conflict by deleting every conflicting row
and inserting the fresh one. -/
def mark_problem_sent (db : DBState) (user_id problem_id : Nat)
    (solution_language email_status : String) : DBState :=
  { db with sent_problems :=
      db.sent_problems.filter (fun sp =>
        !(sp.user_id == user_id && sp.problem_id == problem_id)) ++
      [{ user_id := user_id, problem_id := problem_id,
         solution_language := solution_language,
         email_status := email_status }] }

/-- The deduplication invariant: the (user, problem) keys of the
`sent_problems` table are pairwise distinct. -/
def ledgerUnique (l : List SentProblem) : Prop :=
  (l.map ledgerKey).Nodup

instance (l : List SentProblem) : Decidable (ledgerUnique l) :=
  inferInstanceAs (Decidable (l.map ledgerKey).Nodup)

/-- Number of ledger rows for one (user, problem) pair. -/
def countPair (l : List SentProblem) (u p : Nat) : Nat :=
  (l.filter (fun sp => sp.user_id == u && sp.problem_id == p)).length

/-- The rows `get_user_stats` (lines 423-454) counts for `total_sent`:
`WHERE user_id = ? AND email_status = 'sent'`. -/
def statsSentRows (db : DBState) (user_id : Nat) : List SentProblem :=
  db.sent_problems.filter (fun sp =>
    sp.user_id == user_id && sp.email_status == "sent")

/-- The rows behind one `by_difficulty` bucket of `get_user_stats`:
the join with `problems` keeps the rows whose problem has the given
difficulty, again restricted to `email_status = 'sent'`. -/
def statsDifficultyRows (db : DBState) (user_id : Nat) (difficulty : String) :
    List SentProblem :=
  (statsSentRows db user_id).filter (fun sp =>
    db.problems.any (fun p => p.id == sp.problem_id && p.difficulty == difficulty))

/-- `DatabaseManager.get_user_stats`, as the pair of counts the two
`SELECT COUNT` queries return (`by_difficulty` as a function from
difficulty to count; difficulties absent from the GROUP BY read 0). -/
def get_user_stats (db : DBState) (user_id : Nat) : Nat × (String → Nat) :=
  ((statsSentRows db user_id).length,
   fun difficulty => (statsDifficultyRows db user_id difficulty).length)

end DatabaseManager

/-- `src/config.py`, class `Config`: the three required credentials
(scheduler timing and paths feed no claim). -/
structure Config where
  groq_api_key : String
  email_address : String
  email_password : String
deriving DecidableEq

namespace Config

/-- `Config.SUPPORTED_LANGUAGES` keys. -/
def SUPPORTED_LANGUAGES : List String :=
  ["python", "java", "cpp", "javascript", "go", "rust"]

/-- `Config.DIFFICULTY_LEVELS` keys. -/
def DIFFICULTY_LEVELS : List String :=
  ["easy", "medium", "hard"]

/-- The field names `Config.validate_config` (config.py lines 55-80)
prints when it fails: one line per empty required field. -/
def missing_report (c : Config) : List String :=
  (if c.groq_api_key == "" then ["GROQ_API_KEY"] else []) ++
  (if c.email_address == "" then ["EMAIL_ADDRESS"] else []) ++
  (if c.email_password == "" then ["EMAIL_PASSWORD"] else [])

/-- `Config.validate_config`: `missing_fields = [f for f in required if not f]`;
returns `False` iff some required field is empty. -/
def validate_config (c : Config) : Bool :=
  ([c.groq_api_key, c.email_address, c.email_password].filter
      (fun f => f == "")).isEmpty

end Config

/-- Aggregate counters built by `process_daily_emails`
(coordinator.py lines 57-64; `start_time` / `end_time` are wall-clock
reads and are dropped). -/
structure BatchResults where
  total_users : Nat
  emails_sent : Nat
  emails_failed : Nat
  errors : List String
deriving DecidableEq

/-- The external collaborators of one batch run, as oracles.  Each
oracle takes exactly the arguments the Python call site passes.
`Except String` results model calls that may raise. -/
structure Env where
  /-- ordering chosen by `ORDER BY RANDOM()` in
  `get_unsent_problem_for_user`. -/
  shuffle : List Problem → List Problem
  /-- `FetchAgent.get_problem_by_difficulty` (internally caught, so
  `Option` rather than `Except`). -/
  fetch : String → Option Problem
  /-- `SolveAgent.generate_solution(problem, language)`; `.ok none`
  models its internal `return None` paths, `.error` an escaping
  exception. -/
  gen : Problem → String → Except String (Option Solution)
  /-- `HumorAgent.add_humor_to_solution`: total, returns an enhanced
  solution (its own `try/except` returns the original on error). -/
  humor : Solution → Solution
  /-- `MailAgent. send_daily_problem(user, problem, solution)`: returns
  a success flag; `.error` models an escaping exception. -/
  deliver : User → Problem → Solution → Except String Bool

namespace Coordinator

open DatabaseManager

/-- `LeetcodeEmailCoordinator._get_and_store_new_problem`
(coordinator.py lines 177-207): fetch a problem for the difficulty and
store it; `None` when the fetch agent has nothing. -/
def get_and_store_new_problem (env : Env) (db : DBState) (difficulty : String) :
    Option Problem × DBState :=
  match env.fetch difficulty with
  | none => (none, db)
  | some p =>
    match add_problem db p with
    | (db1, some stored) => (some stored, db1)
    | (db1, none) => (none, db1)

/-- Step 1 of `_process_user_email` (lines 123-137): the unsent problem
for the user, falling back to the fetch agent. -/
def select_problem (env : Env) (db : DBState) (user : User) :
    Option Problem × DBState :=
  match get_unsent_problem_for_user env.shuffle db user.id user.preferred_difficulty with
  | some p => (some p, db)
  | none => get_and_store_new_problem env db user.preferred_difficulty

/-- The body of `LeetcodeEmailCoordinator._process_user_email`
(lines 120-171), before its enclosing `try/except`: select a problem,
generate a solution, add humor, deliver, and record the delivery with
status `"sent"` or `"failed"` according to the delivery flag.
`.error` is an exception leaving the body. -/
def process_user_email_body (env : Env) (db : DBState) (user : User) :
    Except String Bool × DBState :=
  match select_problem env db user with
  | (none, db1) => (.ok false, db1)
  | (some problem, db1) =>
    match env.gen problem user.preferred_language with
    | .error msg => (.error msg, db1)
    | .ok none => (.ok false, db1)
    | .ok (some solution) =>
      let enhanced := env.humor solution
      match env.deliver user problem enhanced with
      | .error msg => (.error msg, db1)
      | .ok true =>
        (.ok true,
         mark_problem_sent db1 user.id problem.id user.preferred_language "sent")
      | .ok false =>
        (.ok false,
         mark_problem_sent db1 user.id problem.id user.preferred_language "failed")

/-- `_process_user_email` (lines 110-175): the whole body sits inside
`try/except Exception: return False`, so an escaping exception becomes
an ordinary `False` and state changes made before it persist. -/
def process_user_email (env : Env) (db : DBState) (user : User) :
    Except String Bool × DBState :=
  match process_user_email_body env db user with
  | (.error _, db1) => (.ok false, db1)
  | r => r

/-- The per-user loop of `process_daily_emails` (lines 79-93): count a
success or a failure; an exception escaping `_process_user_email` would
be counted as a failure and append
`"Error processing user <email>: <msg>"` to `errors`. -/
def process_users_loop (env : Env) : List User → DBState → BatchResults →
    BatchResults × DBState
  | [], db, acc => (acc, db)
  | user :: rest, db, acc =>
    match process_user_email env db user with
    | (.ok true, db1) =>
      process_users_loop env rest db1 { acc with emails_sent := acc.emails_sent + 1 }
    | (.ok false, db1) =>
      process_users_loop env rest db1 { acc with emails_failed := acc.emails_failed + 1 }
    | (.error msg, db1) =>
      process_users_loop env rest db1
        { acc with
          emails_failed := acc.emails_failed + 1,
          errors := acc.errors ++ ["Error processing user " ++ user.email ++ ": " ++ msg] }

/-- `LeetcodeEmailCoordinator.process_daily_emails` (lines 47-108):
collect the active users and run the per-user loop over them. -/
def process_daily_emails (env : Env) (db : DBState) : BatchResults × DBState :=
  let active := get_active_users db
  process_users_loop env active db
    { total_users := active.length, emails_sent := 0, emails_failed := 0, errors := [] }

/-- `LeetcodeEmailCoordinator.add_user` (coordinator.py lines 209-280):
validation, duplicate check, then either the buggy reactivation path or
a plain insert.  In the reactivation path the source updates the
preferences and then calls `deactivate_user(email)` — its own comment
reads "This sets is_active to False.  We need to manually reactivate" —
before returning `True`. -/
def add_user (db : DBState) (email preferred_language preferred_difficulty : String) :
    Bool × DBState :=
  if email == "" || !(email.data.contains '@') then (false, db)
  else if !(Config.SUPPORTED_LANGUAGES.contains (pyLower preferred_language)) then
    (false, db)
  else if !(Config.DIFFICULTY_LEVELS.contains (pyLower preferred_difficulty)) then
    (false, db)
  else
    match get_user_by_email db email with
    | some existing =>
      if existing.is_active then (false, db)
      else
        match update_user_preferences db email
            (some preferred_language) (some preferred_difficulty) with
        | (db1, true) =>
          let (db2, _) := deactivate_user db1 email
          (true, db2)
        | (db1, false) => (false, db1)
    | none =>
      match DatabaseManager.add_user db email preferred_language preferred_difficulty with
      | (db1, some _) => (true, db1)
      | (db1, none) => (false, db1)

end Coordinator

namespace DailyScheduler

/-- The fields of the result dictionary `_run_daily_job`
(daily_scheduler.py lines 120-169) returns, restricted to the fields
both branches set (timing metadata dropped). -/
structure JobResult where
  job_status : String
  error : Option String
  emails_sent : Nat
  emails_failed : Nat
  total_users : Nat
  errors : List String
deriving DecidableEq

/-- `DailyScheduler._run_daily_job`: call the job function inside
`try/except`; on success tag the result `job_status = "completed"`, on
an exception build the structured failure result.  Either way the
result is also stored in `self.last_run_result`; the pair returned here
is `(returned result, new last_run_result)`. -/
def run_daily_job (job : Except String BatchResults) :
    JobResult × Option JobResult :=
  match job with
  | .ok r =>
    let jr : JobResult :=
      { job_status := "completed", error := none,
        emails_sent := r.emails_sent, emails_failed := r.emails_failed,
        total_users := r.total_users, errors := r.errors }
    (jr, some jr)
  | .error e =>
    let jr : JobResult :=
      { job_status := "failed", error := some e,
        emails_sent := 0, emails_failed := 0, total_users := 0,
        errors := [e] }
    (jr, some jr)

end DailyScheduler

namespace Main

/-- What `main.run_scheduler` (main.py lines 18-77) did when it
returned: whether the cron job was registered with the scheduler and
whether the scheduler was started (`DailyScheduler.start`, lines 48-86,
does both), and the boolean the function returns. -/
structure SchedulerRun where
  cron_registered : Bool
  scheduler_started : Bool
  success : Bool
deriving DecidableEq

/-- `main.run_scheduler`: validate the configuration, test system
health, then build and start the scheduler.  The health check and the
start outcome are oracles; on a validation failure the function returns
`False` before the coordinator or scheduler exist. -/
def run_scheduler (c : Config) (health_overall start_ok : Bool) : SchedulerRun :=
  if !(Config.validate_config c) then
    { cron_registered := false, scheduler_started := false, success := false }
  else if !health_overall then
    { cron_registered := false, scheduler_started := false, success := false }
  else if start_ok then
    { cron_registered := true, scheduler_started := true, success := true }
  else
    { cron_registered := true, scheduler_started := false, success := false }

/-- `main.run_once` (main.py lines 79-114): validate the configuration,
then run one batch; `none` when validation fails (no batch runs). -/
def run_once (c : Config) (env : Env) (db : DBState) :
    Option (BatchResults × DBState) :=
  if Config.validate_config c then some (Coordinator.process_daily_emails env db)
  else none

end Main

namespace SolveAgent

/-- The five sections `_parse_solution_response`
(solve_agent.py lines 209-290) recognises. -/
inductive Section where
  | code
  | explanation
  | time_complexity
  | space_complexity
  | approach
deriving DecidableEq

/-- The result dictionary of `_parse_solution_response`. -/
structure ParseResult where
  code : String
  explanation : String
  time_complexity : String
  space_complexity : String
  approach : String
deriving DecidableEq

/-- Case-insensitive prefix test on character lists (models
`re.IGNORECASE` on the literal part of the fence pattern). -/
def startsWithCI : List Char → List Char → Bool
  | _, [] => true
  | [], _ :: _ => false
  | c :: cs, p :: ps => (c.toLower == p.toLower) && startsWithCI cs ps

/-- Case-sensitive prefix test on character lists. -/
def startsWithCS : List Char → List Char → Bool
  | _, [] => true
  | [], _ :: _ => false
  | c :: cs, p :: ps => (c == p) && startsWithCS cs ps

/-- The header detection of the parser loop: `line.lower().strip()`
compared against the five section headers, in source order. -/
def headerOf (line : String) : Option Section :=
  let s := pyStrip (pyLower line)
  if startsWithCS s.data "solution:".data then some .code
  else if startsWithCS s.data "explanation:".data then some .explanation
  else if startsWithCS s.data "time complexity:".data then some .time_complexity
  else if startsWithCS s.data "space complexity:".data then some .space_complexity
  else if startsWithCS s.data "approach:".data then some .approach
  else none

/-- Index of the first occurrence of `pat` in `cs` (models `re` finding
the leftmost / lazy-shortest match of a literal). -/
def findSub (pat : List Char) : List Char → Option Nat
  | [] => if pat.isEmpty then some 0 else none
  | c :: cs =>
    if startsWithCS (c :: cs) pat then some 0
    else (findSub pat cs).map (· + 1)

/-- The backtracking of `\s*\n`: the largest `k` such that the first
`k` characters are whitespace and character `k` is a newline; `none`
when no split of a leading whitespace run ends at a newline. -/
def wsRunLastNewline : List Char → Option Nat
  | [] => none
  | c :: cs =>
    if c.isWhitespace then
      match wsRunLastNewline cs with
      | some k => some (k + 1)
      | none => if c == '\n' then some 0 else none
    else none

/-- The three backticks opening and closing a fence. -/
def ticks : List Char := "```".data

/-- The closing delimiter `\n` + three backticks. -/
def closePat : List Char := ("\n" ++ "```").data

/-- One attempted match of the fence regex at the current position:
the opening backticks and language tag (case-insensitive when `ci`),
then `\s*\n` (greedy with backtracking), then the lazy capture up to
the first closing `\n` + backticks.  When no closing delimiter follows
the preferred newline, the regex can still backtrack onto an earlier
newline of the whitespace run and close immediately at the preferred
one; that capture is pure whitespace, modelled as the empty capture
(the caller strips it anyway). -/
def matchFenceAt (lang : List Char) (ci : Bool) (cs : List Char) :
    Option (List Char) :=
  let pat := ticks ++ lang
  if (if ci then startsWithCI cs pat else startsWithCS cs pat) then
    let rest := cs.drop pat.length
    match wsRunLastNewline rest with
    | none => none
    | some k =>
      let body := rest.drop (k + 1)
      match findSub closePat body with
      | some j => some (body.take j)
      | none =>
        if startsWithCS body ticks && (rest.take k).contains '\n' then
          some []
        else none
  else none

/-- Leftmost search for the fence pattern: try every start position in
order (models `re.search`). -/
def searchFence (lang : List Char) (ci : Bool) : List Char → Option (List Char)
  | [] => matchFenceAt lang ci []
  | c :: cs =>
    match matchFenceAt lang ci (c :: cs) with
    | some cap => some cap
    | none => searchFence lang ci cs

/-- `SolveAgent._extract_code_block` (solve_agent.py lines 292-326):
first the fence pattern with the language tag (case-insensitive), then
the bare fence pattern; the captured group is stripped; the empty
string when neither pattern matches. -/
def extract_code_block (content language : String) : String :=
  match searchFence language.data true content.data with
  | some cap => pyStrip (String.mk cap)
  | none =>
    match searchFence [] false content.data with
    | some cap => pyStrip (String.mk cap)
    | none => ""

/-- The loop state of `_parse_solution_response`: the result so far,
`current_section` and `current_content`. -/
structure ParseState where
  result : ParseResult
  current_section : Option Section
  current_content : List String
deriving DecidableEq

/-- Store the joined `current_content` into the result field of the
given section (`'\n'.join(...)`; narrative sections are stripped, the
code section goes through `_extract_code_block`). -/
def flushInto (language : String) (r : ParseResult) (sec : Section)
    (content : List String) : ParseResult :=
  match sec with
  | .code => { r with code := extract_code_block (pyJoinLines content) language }
  | .explanation => { r with explanation := pyStrip (pyJoinLines content) }
  | .time_complexity => { r with time_complexity := pyStrip (pyJoinLines content) }
  | .space_complexity => { r with space_complexity := pyStrip (pyJoinLines content) }
  | .approach => { r with approach := pyStrip (pyJoinLines content) }

/-- One iteration of the parser loop (lines 233-262).  Each header
flushes only the one specific previous section the source checks for
(e.g. `explanation:` flushes only a pending code section); a non-header
line is accumulated only when a section is open. -/
def parseStep (language : String) (st : ParseState) (line : String) : ParseState :=
  match headerOf line with
  | some .code =>
    { st with current_section := some .code, current_content := [] }
  | some .explanation =>
    { result :=
        if st.current_section == some .code then
          flushInto language st.result .code st.current_content
        else st.result,
      current_section := some .explanation, current_content := [] }
  | some .time_complexity =>
    { result :=
        if st.current_section == some .explanation then
          flushInto language st.result .explanation st.current_content
        else st.result,
      current_section := some .time_complexity, current_content := [] }
  | some .space_complexity =>
    { result :=
        if st.current_section == some .time_complexity then
          flushInto language st.result .time_complexity st.current_content
        else st.result,
      current_section := some .space_complexity, current_content := [] }
  | some .approach =>
    { result :=
        if st.current_section == some .space_complexity then
          flushInto language st.result .space_complexity st.current_content
        else st.result,
      current_section := some .approach, current_content := [] }
  | none =>
    if st.current_section.isSome then
      { st with current_content := st.current_content ++ [line] }
    else st

/-- `SolveAgent._parse_solution_response` (lines 209-290): run the loop
over `content.split('\n')`, flush the last open section, then the two
fallbacks: an empty `code` is refilled from the whole content, an empty
`explanation` becomes the stripped whole content. -/
def parse_solution_response (content language : String) : ParseResult :=
  let init : ParseState :=
    { result := { code := "", explanation := "", time_complexity := "",
                  space_complexity := "", approach := "" },
      current_section := none, current_content := [] }
  let final := (pySplitLines content).foldl (parseStep language) init
  let r :=
    match final.current_section with
    | some sec => flushInto language final.result sec final.current_content
    | none => final.result
  let r := if r.code == "" then { r with code := extract_code_block content language } else r
  if r.explanation == "" then { r with explanation := pyStrip content } else r

end SolveAgent

/-! ## Concrete inputs used by witnesses and counterexamples -/

/-- A concrete generated solution. -/
def solW : Solution :=
  { problem_id := 1, language := "python",
    solution_code := "return 1", explanation := "direct" }

/-- One inactive subscriber on file: the reactivation scenario. -/
def dbC2 : DBState :=
  { users := [{ id := 1, email := "alice@example.com",
                preferred_language := "python",
                preferred_difficulty := "medium", is_active := false }],
    problems := [], sent_problems := [],
    next_user_id := 2, next_problem_id := 1 }

/-- Three active subscribers; subscriber 2 prefers the language for
which generation blows up in `envC3`. -/
def dbC3 : DBState :=
  { users := [{ id := 1, email := "a@x.com", preferred_language := "python",
                preferred_difficulty := "easy", is_active := true },
              { id := 2, email := "b@x.com", preferred_language := "java",
                preferred_difficulty := "easy", is_active := true },
              { id := 3, email := "c@x.com", preferred_language := "python",
                preferred_difficulty := "easy", is_active := true }],
    problems := [{ id := 1, title := "Two Sum", difficulty := "easy" }],
    sent_problems := [], next_user_id := 4, next_problem_id := 2 }

/-- Collaborators for the partial-failure scenario: generation raises
for the `"java"` variant, delivery always succeeds. -/
def envC3 : Env :=
  { shuffle := id,
    fetch := fun _ => none,
    gen := fun _ lang => if lang == "java" then .error "boom" else .ok (some solW),
    humor := id,
    deliver := fun _ _ _ => .ok true }

/-- A ledger that already holds a pending row for the pair (1, 2). -/
def dbW1 : DBState :=
  { users := [], problems := [],
    sent_problems := [{ user_id := 1, problem_id := 2,
                        solution_language := "python", email_status := "pending" }],
    next_user_id := 1, next_problem_id := 3 }

/-- Two problems of different difficulties; user 7 has already been
sent problem 2. -/
def dbW4 : DBState :=
  { users := [], problems := [{ id := 1, title := "A", difficulty := "easy" },
                              { id := 2, title := "B", difficulty := "hard" }],
    sent_problems := [{ user_id := 7, problem_id := 2,
                        solution_language := "python", email_status := "sent" }],
    next_user_id := 1, next_problem_id := 3 }

/-- One active subscriber. -/
def userW : User :=
  { id := 1, email := "a@x.com", preferred_language := "python",
    preferred_difficulty := "easy", is_active := true }

/-- The problem `userW` gets. -/
def probW : Problem := { id := 1, title := "Two Sum", difficulty := "easy" }

/-- Store for the delivery-recording witness. -/
def dbW5 : DBState :=
  { users := [userW], problems := [probW], sent_problems := [],
    next_user_id := 2, next_problem_id := 2 }

/-- Collaborators for the delivery-recording witness: everything
succeeds. -/
def envW5 : Env :=
  { shuffle := id,
    fetch := fun _ => none,
    gen := fun _ _ => .ok (some solW),
    humor := id,
    deliver := fun _ _ _ => .ok true }

/-- A configuration missing its generation-API key. -/
def cfgW : Config :=
  { groq_api_key := "", email_address := "a@b.c", email_password := "pw" }

/-- A store holding one failed delivery row for user 5 and problem 1. -/
def dbW10 : DBState :=
  { users := [], problems := [{ id := 1, title := "A", difficulty := "easy" }],
    sent_problems := [{ user_id := 5, problem_id := 1,
                        solution_language := "python", email_status := "failed" }],
    next_user_id := 1, next_problem_id := 2 }

/-- The failed row of `dbW10`. -/
def recW10 : SentProblem :=
  { user_id := 5, problem_id := 1,
    solution_language := "python", email_status := "failed" }

/-! ## Helper lemmas -/

namespace DatabaseManager

/-- Membership in the candidate list of the selection query, rephrased
without `Bool`. -/
theorem mem_unsentCandidates {db : DBState} {u : Nat} {d : String} {p : Problem} :
    p ∈ unsentCandidates db u d ↔
      p ∈ db.problems ∧ p.difficulty = d ∧
        ∀ sp ∈ db.sent_problems, ¬(sp.user_id = u ∧ sp.problem_id = p.id) := by
  simp [unsentCandidates, List.mem_filter, List.any_eq_true, not_and, and_assoc]

end DatabaseManager


namespace DatabaseManager

theorem map_ledgerKey_filter_pair (u p : Nat) (l : List SentProblem) :
    (l.filter (fun sp => !(sp.user_id == u && sp.problem_id == p))).map ledgerKey
      = (l.map ledgerKey).filter (fun k => !(k.1 == u && k.2 == p)) := by
  induction l with
  | nil => rfl
  | cons a t ih =>
    cases hb : (a.user_id == u && a.problem_id == p) with
    | true =>
      simp only [List.map_cons, List.filter_cons, ledgerKey, hb, Bool.not_true,
        ite_false, Bool.false_eq_true, if_false, ih]
    | false =>
      simp only [List.map_cons, List.filter_cons, ledgerKey, hb, Bool.not_false,
        ite_true, if_true, ih, List.map_cons]

theorem countPair_eq_zero_of_not_mem {l : List SentProblem} {u p : Nat}
    (h : (u, p) ∉ l.map ledgerKey) : countPair l u p = 0 := by
  rw [countPair, List.length_eq_zero]
  apply List.filter_eq_nil_iff.mpr
  intro a ha
  simp only [Bool.and_eq_true, beq_iff_eq, not_and]
  intro h1 h2
  exact h (List.mem_map.mpr ⟨a, ha, by simp [ledgerKey, h1, h2]⟩)

theorem ledgerUnique_countPair_le_one {l : List SentProblem}
    (h : ledgerUnique l) (u p : Nat) : countPair l u p ≤ 1 := by
  induction l with
  | nil => simp [countPair]
  | cons a t ih =>
    rw [ledgerUnique, List.map_cons, List.nodup_cons] at h
    obtain ⟨hnm, hnd⟩ := h
    cases ha : (a.user_id == u && a.problem_id == p) with
    | true =>
      have hab := ha
      simp only [Bool.and_eq_true, beq_iff_eq] at hab
      have hkey : ledgerKey a = (u, p) := by simp [ledgerKey, hab.1, hab.2]
      have h0 : countPair t u p = 0 :=
        countPair_eq_zero_of_not_mem (hkey ▸ hnm)
      have hstep : countPair (a :: t) u p = countPair t u p + 1 := by
        simp [countPair, List.filter_cons, ha]
      omega
    | false =>
      have hstep : countPair (a :: t) u p = countPair t u p := by
        simp [countPair, List.filter_cons, ha]
      have hih := ih hnd
      omega

theorem mark_sent_eq (db : DBState) (u p : Nat) (lang st : String) :
    (mark_problem_sent db u p lang st).sent_problems
      = db.sent_problems.filter (fun sp =>
            !(sp.user_id == u && sp.problem_id == p)) ++
        [{ user_id := u, problem_id := p,
           solution_language := lang, email_status := st }] := rfl

theorem ledgerUnique_mark {db : DBState} (u p : Nat) (lang st : String)
    (h : ledgerUnique db.sent_problems) :
    ledgerUnique (mark_problem_sent db u p lang st).sent_problems := by
  rw [ledgerUnique, mark_sent_eq, List.map_append, map_ledgerKey_filter_pair,
    List.nodup_append]
  refine ⟨h.filter _, by simp [ledgerKey], ?_⟩
  intro k hk hk2
  simp only [List.map_cons, List.map_nil, List.mem_singleton] at hk2
  subst hk2
  have := List.of_mem_filter hk
  simp [ledgerKey] at this

theorem countPair_mark_self (db : DBState) (u p : Nat) (lang st : String) :
    countPair (mark_problem_sent db u p lang st).sent_problems u p = 1 := by
  rw [countPair, mark_sent_eq, List.filter_append]
  have h1 : (db.sent_problems.filter (fun sp =>
      !(sp.user_id == u && sp.problem_id == p))).filter
        (fun sp => sp.user_id == u && sp.problem_id == p) = [] := by
    rw [List.filter_filter]
    apply List.filter_eq_nil_iff.mpr
    intro a _
    by_cases h : (a.user_id == u && a.problem_id == p) = true <;> simp [h]
  rw [h1]
  simp

theorem length_mark_of_exists {db : DBState} {u p : Nat} (lang st : String)
    (h : ledgerUnique db.sent_problems)
    (hex : ∃ sp ∈ db.sent_problems, sp.user_id = u ∧ sp.problem_id = p) :
    (mark_problem_sent db u p lang st).sent_problems.length
      = db.sent_problems.length := by
  have hpart := List.length_eq_length_filter_add
    (l := db.sent_problems) (fun sp => sp.user_id == u && sp.problem_id == p)
  have hone : countPair db.sent_problems u p = 1 := by
    have hle := ledgerUnique_countPair_le_one h u p
    have hge : 1 ≤ countPair db.sent_problems u p := by
      obtain ⟨sp, hsp, h1, h2⟩ := hex
      have hm : sp ∈ db.sent_problems.filter
          (fun sp => sp.user_id == u && sp.problem_id == p) :=
        List.mem_filter.mpr ⟨hsp, by simp [h1, h2]⟩
      have := List.length_pos.mpr (List.ne_nil_of_mem hm)
      simpa [countPair] using this
    omega
  rw [mark_sent_eq, List.length_append]
  rw [countPair] at hone
  have hsame : (db.sent_problems.filter (fun sp =>
        !(sp.user_id == u && sp.problem_id == p))).length
      = (db.sent_problems.filter
          (! (fun sp : SentProblem => sp.user_id == u && sp.problem_id == p) ·)).length := rfl
  simp only [List.length_singleton]
  omega

theorem mark_mem_new (db : DBState) (u p : Nat) (lang st : String) :
    ({ user_id := u, problem_id := p, solution_language := lang,
       email_status := st } : SentProblem)
      ∈ (mark_problem_sent db u p lang st).sent_problems := by
  rw [mark_sent_eq]
  simp

theorem mark_status_of_key {db : DBState} {u p : Nat} {lang st : String} :
    ∀ sp ∈ (mark_problem_sent db u p lang st).sent_problems,
      sp.user_id = u → sp.problem_id = p →
      sp.email_status = st ∧ sp.solution_language = lang := by
  intro sp hsp h1 h2
  rw [mark_sent_eq] at hsp
  rcases List.mem_append.mp hsp with hf | hn
  · have := List.of_mem_filter hf
    simp [h1, h2] at this
  · simp only [List.mem_singleton] at hn
    subst hn
    exact ⟨rfl, rfl⟩

end DatabaseManager

namespace Coordinator

open DatabaseManager

/-- `_get_and_store_new_problem` never touches the `sent_problems`
table. -/
theorem get_and_store_sent_eq (env : Env) (db : DBState) (d : String) :
    (get_and_store_new_problem env db d).2.sent_problems = db.sent_problems := by
  unfold get_and_store_new_problem
  cases env.fetch d with
  | none => rfl
  | some p => rfl

/-- Step 1 of `_process_user_email` never touches the `sent_problems`
table. -/
theorem select_problem_sent_eq (env : Env) (db : DBState) (user : User) :
    (select_problem env db user).2.sent_problems = db.sent_problems := by
  unfold select_problem
  cases get_unsent_problem_for_user env.shuffle db user.id user.preferred_difficulty with
  | some p => rfl
  | none => exact get_and_store_sent_eq env db user.preferred_difficulty

/-- `_process_user_email` preserves the ledger-key uniqueness invariant:
its only ledger write is the `mark_problem_sent` upsert. -/
theorem ledgerUnique_process_user_email (env : Env) (db : DBState) (user : User)
    (h : ledgerUnique db.sent_problems) :
    ledgerUnique (process_user_email env db user).2.sent_problems := by
  rcases hsel : select_problem env db user with ⟨op, db1⟩
  have hdb1 : db1.sent_problems = db.sent_problems := by
    have hx := select_problem_sent_eq env db user
    rw [hsel] at hx
    exact hx
  have h1 : ledgerUnique db1.sent_problems := hdb1 ▸ h
  cases op with
  | none =>
    unfold process_user_email process_user_email_body
    simp only [hsel]
    exact h1
  | some problem =>
    rcases hgen : env.gen problem user.preferred_language with msg | osol
    · unfold process_user_email process_user_email_body
      simp only [hsel, hgen]
      exact h1
    · cases osol with
      | none =>
        unfold process_user_email process_user_email_body
        simp only [hsel, hgen]
        exact h1
      | some solution =>
        rcases hdel : env.deliver user problem (env.humor solution) with msg | b
        · unfold process_user_email process_user_email_body
          simp only [hsel, hgen, hdel]
          exact h1
        · cases b with
          | true =>
            unfold process_user_email process_user_email_body
            simp only [hsel, hgen, hdel]
            exact ledgerUnique_mark _ _ _ _ h1
          | false =>
            unfold process_user_email process_user_email_body
            simp only [hsel, hgen, hdel]
            exact ledgerUnique_mark _ _ _ _ h1

/-- The per-user loop preserves the ledger-key uniqueness invariant. -/
theorem ledgerUnique_process_users_loop (env : Env) (users : List User) :
    ∀ (db : DBState) (acc : BatchResults), ledgerUnique db.sent_problems →
      ledgerUnique (process_users_loop env users db acc).2.sent_problems := by
  induction users with
  | nil => intro db acc h; simpa [process_users_loop] using h
  | cons user rest ih =>
    intro db acc h
    have hstep := ledgerUnique_process_user_email env db user h
    unfold process_users_loop
    rcases hp : process_user_email env db user with ⟨r, db1⟩
    have hdb1 : ledgerUnique db1.sent_problems := by
      rw [hp] at hstep
      exact hstep
    cases r with
    | error msg => exact ih db1 _ hdb1
    | ok b => cases b with
      | true => exact ih db1 _ hdb1
      | false => exact ih db1 _ hdb1

/-- A whole batch run preserves the ledger-key uniqueness invariant. -/
theorem ledgerUnique_process_daily_emails (env : Env) (db : DBState)
    (h : ledgerUnique db.sent_problems) :
    ledgerUnique (process_daily_emails env db).2.sent_problems :=
  ledgerUnique_process_users_loop env _ db _ h

end Coordinator


namespace Coordinator

/-- `_process_user_email` never lets an exception escape: its body is
wrapped in a blanket `try/except` that returns `False`. -/
theorem process_user_email_ok (env : Env) (db : DBState) (user : User) :
    ∃ b db1, process_user_email env db user = (.ok b, db1) := by
  rcases hbody : process_user_email_body env db user with ⟨r, db1⟩
  cases r with
  | error msg =>
    refine ⟨false, db1, ?_⟩
    unfold process_user_email
    simp only [hbody]
  | ok b =>
    refine ⟨b, db1, ?_⟩
    unfold process_user_email
    simp only [hbody]

/-- Loop invariant: the per-user loop processes every subscriber,
adds exactly one to `emails_sent` or `emails_failed` per subscriber,
and — because `_process_user_email` swallows every exception — never
appends to `errors` and never changes `total_users`. -/
theorem process_users_loop_spec (env : Env) (users : List User) :
    ∀ (db : DBState) (acc : BatchResults),
      (process_users_loop env users db acc).1.errors = acc.errors
    ∧ (process_users_loop env users db acc).1.emails_sent
        + (process_users_loop env users db acc).1.emails_failed
        = acc.emails_sent + acc.emails_failed + users.length
    ∧ (process_users_loop env users db acc).1.total_users = acc.total_users := by
  induction users with
  | nil => intro db acc; simp [process_users_loop]
  | cons user rest ih =>
    intro db acc
    obtain ⟨b, db1, hok⟩ := process_user_email_ok env db user
    unfold process_users_loop
    rw [hok]
    cases b with
    | true =>
      have h := ih db1 { acc with emails_sent := acc.emails_sent + 1 }
      refine ⟨h.1, ?_, h.2.2⟩
      have h21 := h.2.1
      simp only [List.length_cons]
      simp at h21
      omega
    | false =>
      have h := ih db1 { acc with emails_failed := acc.emails_failed + 1 }
      refine ⟨h.1, ?_, h.2.2⟩
      have h21 := h.2.1
      simp only [List.length_cons]
      simp at h21
      omega

end Coordinator


namespace DatabaseManager

/-- Soundness of the selection query: a returned problem has the
requested difficulty, lies in the store, and appears in no ledger row
of the user. -/
theorem selection_sound {shuffle : List Problem → List Problem}
    (hs : ∀ l, (shuffle l).Perm l) {db : DBState} {u : Nat} {d : String}
    {p : Problem} (h : get_unsent_problem_for_user shuffle db u d = some p) :
    p ∈ db.problems ∧ p.difficulty = d ∧
      ∀ sp ∈ db.sent_problems, ¬(sp.user_id = u ∧ sp.problem_id = p.id) := by
  have hmem : p ∈ shuffle (unsentCandidates db u d) := by
    unfold get_unsent_problem_for_user at h
    cases hl : shuffle (unsentCandidates db u d) with
    | nil => simp [hl] at h
    | cons a t =>
      simp only [hl, List.head?_cons, Option.some.injEq] at h
      simp [hl, h]
  exact mem_unsentCandidates.mp ((hs _).mem_iff.mp hmem)

/-- Completeness of the selection query: it returns `none` exactly when
every problem of the requested difficulty already has a ledger row for
the user. -/
theorem selection_none_iff {shuffle : List Problem → List Problem}
    (hs : ∀ l, (shuffle l).Perm l) (db : DBState) (u : Nat) (d : String) :
    get_unsent_problem_for_user shuffle db u d = none ↔
      ∀ p ∈ db.problems, p.difficulty = d →
        ∃ sp ∈ db.sent_problems, sp.user_id = u ∧ sp.problem_id = p.id := by
  unfold get_unsent_problem_for_user
  rw [List.head?_eq_none_iff]
  constructor
  · intro hnil p hp hd
    have hc : unsentCandidates db u d = [] := by
      have hperm := hs (unsentCandidates db u d)
      rw [hnil] at hperm
      exact hperm.symm.eq_nil
    by_contra hno
    push_neg at hno
    have hmem : p ∈ unsentCandidates db u d := by
      refine mem_unsentCandidates.mpr ⟨hp, hd, ?_⟩
      intro sp hsp ⟨h1, h2⟩
      exact (hno sp hsp) h1 h2
    simp [hc] at hmem
  · intro hall
    have hc : unsentCandidates db u d = [] := by
      cases hcc : unsentCandidates db u d with
      | nil => rfl
      | cons a t =>
        have ha : a ∈ unsentCandidates db u d := by simp [hcc]
        obtain ⟨hp, hd, hns⟩ := mem_unsentCandidates.mp ha
        obtain ⟨sp, hsp, h1, h2⟩ := hall a hp hd
        exact absurd ⟨h1, h2⟩ (hns sp hsp)
    rw [hc]
    exact (hs []).eq_nil

/-- Once any ledger row for (user, problem id) exists — whatever its
status — the selection query can never return that problem id to that
user again. -/
theorem selection_excludes_recorded {db : DBState} {u : Nat}
    {rec : SentProblem} (hmem : rec ∈ db.sent_problems) (hu : rec.user_id = u) :
    ∀ (shuffle : List Problem → List Problem), (∀ l, (shuffle l).Perm l) →
      ∀ (d : String) (q : Problem),
        get_unsent_problem_for_user shuffle db u d = some q →
        q.id ≠ rec.problem_id := by
  intro shuffle hs d q hq hcontra
  obtain ⟨_, _, hns⟩ := selection_sound hs hq
  exact hns rec hmem ⟨hu, hcontra.symm⟩

end DatabaseManager

namespace Coordinator

open DatabaseManager

/-- When step 1 selects a problem and both the generation and delivery
collaborators return normally, `_process_user_email` reaches the
`mark_problem_sent` write with the status determined by the delivery
flag. -/
theorem process_user_email_deliver (env : Env) (db : DBState) (user : User)
    (problem : Problem) (sol : Solution) (b : Bool)
    (hsel : get_unsent_problem_for_user env.shuffle db user.id
        user.preferred_difficulty = some problem)
    (hgen : env.gen problem user.preferred_language = .ok (some sol))
    (hdel : env.deliver user problem (env.humor sol) = .ok b) :
    process_user_email env db user =
      (.ok b, mark_problem_sent db user.id problem.id user.preferred_language
          (if b then "sent" else "failed")) := by
  have hs : select_problem env db user = (some problem, db) := by
    unfold select_problem
    rw [hsel]
  unfold process_user_email process_user_email_body
  simp only [hs, hgen, hdel]
  cases b with
  | true => rfl
  | false => rfl

end Coordinator


namespace Coordinator

open DatabaseManager

/-- Any sequence of batch runs preserves the ledger-key uniqueness
invariant. -/
theorem ledgerUnique_batches (envs : List Env) :
    ∀ db : DBState, ledgerUnique db.sent_problems →
      ledgerUnique ((envs.foldl
        (fun d e => (process_daily_emails e d).2) db).sent_problems) := by
  induction envs with
  | nil => intro db h; simpa using h
  | cons e rest ih =>
    intro db h
    simpa [List.foldl_cons] using
      ih (process_daily_emails e db).2 (ledgerUnique_process_daily_emails e db h)

end Coordinator

namespace SolveAgent

/-- When no line is a section header, the parser loop leaves its state
untouched (nothing is accumulated while no section is open). -/
theorem foldl_parseStep_no_header (language : String) (lines : List String)
    (h : ∀ l ∈ lines, headerOf l = none) (st : ParseState)
    (hsec : st.current_section = none) :
    lines.foldl (parseStep language) st = st := by
  induction lines with
  | nil => rfl
  | cons line rest ih =>
    have hline : headerOf line = none := h line (by simp)
    have hstep : parseStep language st line = st := by
      unfold parseStep
      rw [hline, hsec]
      rfl
    rw [List.foldl_cons, hstep]
    exact ih (fun l hl => h l (by simp [hl])) 

end SolveAgent


/-! ## Claims -/

open DatabaseManager Coordinator in
/-- C1: at most one DeliveryRecord per (subscriber, item) pair ever
exists.  On a uniquely-keyed ledger, `mark_problem_sent` preserves the
key-uniqueness invariant, leaves exactly one row for the written pair
and at most one row for every pair, overwrites the status (and
language) of the pair's row rather than adding a second one — the
table size is unchanged when the pair was already present — and the
invariant is preserved by any sequence of batch runs. -/
theorem c1_at_most_one_delivery_record (db : DBState) (u p : Nat)
    (lang st : String) (h : ledgerUnique db.sent_problems) :
    ledgerUnique (mark_problem_sent db u p lang st).sent_problems
  ∧ countPair (mark_problem_sent db u p lang st).sent_problems u p = 1
  ∧ (∀ u' p', countPair (mark_problem_sent db u p lang st).sent_problems u' p' ≤ 1)
  ∧ (∀ sp ∈ (mark_problem_sent db u p lang st).sent_problems,
        sp.user_id = u → sp.problem_id = p →
        sp.email_status = st ∧ sp.solution_language = lang)
  ∧ ((∃ sp ∈ db.sent_problems, sp.user_id = u ∧ sp.problem_id = p) →
        (mark_problem_sent db u p lang st).sent_problems.length
          = db.sent_problems.length)
  ∧ (∀ envs : List Env,
        ledgerUnique ((envs.foldl (fun d e => (process_daily_emails e d).2)
          (mark_problem_sent db u p lang st)).sent_problems)) := by
  have hm := ledgerUnique_mark u p lang st h
  exact ⟨hm, countPair_mark_self db u p lang st,
    fun u' p' => ledgerUnique_countPair_le_one hm u' p',
    mark_status_of_key,
    fun hex => length_mark_of_exists lang st h hex,
    fun envs => ledgerUnique_batches envs _ hm⟩

open DatabaseManager Coordinator in
/-- Witness for C1 at the concrete ledger `dbW1`, which already holds a
pending row for the pair (1, 2). -/
theorem c1_at_most_one_delivery_record_witness :
    ledgerUnique dbW1.sent_problems
  ∧ (ledgerUnique (mark_problem_sent dbW1 1 2 "python" "sent").sent_problems
  ∧ countPair (mark_problem_sent dbW1 1 2 "python" "sent").sent_problems 1 2 = 1
  ∧ (∀ u' p', countPair (mark_problem_sent dbW1 1 2 "python" "sent").sent_problems u' p' ≤ 1)
  ∧ (∀ sp ∈ (mark_problem_sent dbW1 1 2 "python" "sent").sent_problems,
        sp.user_id = 1 → sp.problem_id = 2 →
        sp.email_status = "sent" ∧ sp.solution_language = "python")
  ∧ ((∃ sp ∈ dbW1.sent_problems, sp.user_id = 1 ∧ sp.problem_id = 2) →
        (mark_problem_sent dbW1 1 2 "python" "sent").sent_problems.length
          = dbW1.sent_problems.length)
  ∧ (∀ envs : List Env,
        ledgerUnique ((envs.foldl (fun d e => (process_daily_emails e d).2)
          (mark_problem_sent dbW1 1 2 "python" "sent")).sent_problems))) :=
  ⟨by decide, c1_at_most_one_delivery_record dbW1 1 2 "python" "sent" (by decide)⟩

open DatabaseManager in
/-- C4: for every subscriber and difficulty, and for any ordering the
`ORDER BY RANDOM()` clause may produce, the selection query returns
only a stored problem of the requested difficulty with no ledger row
for that subscriber, and returns `none` exactly when no such problem
exists. -/
theorem c4_selection_sound_complete (shuffle : List Problem → List Problem)
    (hs : ∀ l, (shuffle l).Perm l) (db : DBState) (u : Nat) (d : String) :
    (∀ p, get_unsent_problem_for_user shuffle db u d = some p →
        p ∈ db.problems ∧ p.difficulty = d ∧
          ∀ sp ∈ db.sent_problems, ¬(sp.user_id = u ∧ sp.problem_id = p.id))
  ∧ (get_unsent_problem_for_user shuffle db u d = none ↔
        ∀ p ∈ db.problems, p.difficulty = d →
          ∃ sp ∈ db.sent_problems, sp.user_id = u ∧ sp.problem_id = p.id) :=
  ⟨fun _ hp => selection_sound hs hp, selection_none_iff hs db u d⟩

open DatabaseManager in
/-- Witness for C4 with the identity ordering on the store `dbW4`. -/
theorem c4_selection_sound_complete_witness :
    (∀ l : List Problem, (id l).Perm l)
  ∧ ((∀ p, get_unsent_problem_for_user id dbW4 7 "easy" = some p →
        p ∈ dbW4.problems ∧ p.difficulty = "easy" ∧
          ∀ sp ∈ dbW4.sent_problems, ¬(sp.user_id = 7 ∧ sp.problem_id = p.id))
  ∧ (get_unsent_problem_for_user id dbW4 7 "easy" = none ↔
        ∀ p ∈ dbW4.problems, p.difficulty = "easy" →
          ∃ sp ∈ dbW4.sent_problems, sp.user_id = 7 ∧ sp.problem_id = p.id)) :=
  ⟨fun l => List.Perm.refl l,
   c4_selection_sound_complete id (fun l => List.Perm.refl l) dbW4 7 "easy"⟩

open DatabaseManager Coordinator in
/-- C5: when a subscriber's selected problem reaches the delivery step,
a ledger row is written whatever the delivery outcome — status `"sent"`
on success, `"failed"` on failure — and afterwards the selection query
can never offer that problem to that subscriber again. -/
theorem c5_delivery_outcome_recorded (env : Env) (db : DBState) (user : User)
    (problem : Problem) (sol : Solution) (b : Bool)
    (hsel : get_unsent_problem_for_user env.shuffle db user.id
        user.preferred_difficulty = some problem)
    (hgen : env.gen problem user.preferred_language = .ok (some sol))
    (hdel : env.deliver user problem (env.humor sol) = .ok b) :
    ({ user_id := user.id, problem_id := problem.id,
       solution_language := user.preferred_language,
       email_status := if b then "sent" else "failed" } : SentProblem)
        ∈ (process_user_email env db user).2.sent_problems
  ∧ (process_user_email env db user).1 = .ok b
  ∧ (∀ shuffle' : List Problem → List Problem, (∀ l, (shuffle' l).Perm l) →
      ∀ (d : String) (q : Problem),
        get_unsent_problem_for_user shuffle' (process_user_email env db user).2
            user.id d = some q →
        q.id ≠ problem.id) := by
  have hrun := process_user_email_deliver env db user problem sol b hsel hgen hdel
  rw [hrun]
  refine ⟨mark_mem_new db user.id problem.id user.preferred_language _, rfl, ?_⟩
  intro shuffle' hs' d q hq
  exact selection_excludes_recorded
    (mark_mem_new db user.id problem.id user.preferred_language _) rfl
    shuffle' hs' d q hq

open DatabaseManager Coordinator in
/-- Witness for C5: in the all-success scenario `envW5` / `dbW5`, the
row (1, 1, python, sent) is written and problem 1 is never offered to
subscriber 1 again. -/
theorem c5_delivery_outcome_recorded_witness :
    get_unsent_problem_for_user envW5.shuffle dbW5 userW.id
        userW.preferred_difficulty = some probW
  ∧ envW5.gen probW userW.preferred_language = .ok (some solW)
  ∧ envW5.deliver userW probW (envW5.humor solW) = .ok true
  ∧ (({ user_id := userW.id, problem_id := probW.id,
        solution_language := userW.preferred_language,
        email_status := if true then "sent" else "failed" } : SentProblem)
        ∈ (process_user_email envW5 dbW5 userW).2.sent_problems
  ∧ (process_user_email envW5 dbW5 userW).1 = .ok true
  ∧ (∀ shuffle' : List Problem → List Problem, (∀ l, (shuffle' l).Perm l) →
      ∀ (d : String) (q : Problem),
        get_unsent_problem_for_user shuffle' (process_user_email envW5 dbW5 userW).2
            userW.id d = some q →
        q.id ≠ probW.id)) :=
  ⟨by decide, rfl, rfl,
   c5_delivery_outcome_recorded envW5 dbW5 userW probW solW true (by decide) rfl rfl⟩

open DatabaseManager in
/-- C10: a status-`"failed"` ledger row permanently excludes its
problem from selection for that subscriber, yet `get_user_stats` counts
only status-`"sent"` rows, so the failed row is reflected neither in
`total_sent` nor in any `by_difficulty` bucket. -/
theorem c10_failed_row_excluded_but_uncounted (db : DBState) (u : Nat)
    (rec : SentProblem) (hmem : rec ∈ db.sent_problems)
    (hu : rec.user_id = u) (hst : rec.email_status = "failed") :
    (∀ shuffle : List Problem → List Problem, (∀ l, (shuffle l).Perm l) →
        ∀ (d : String) (q : Problem),
          get_unsent_problem_for_user shuffle db u d = some q →
          q.id ≠ rec.problem_id)
  ∧ rec ∉ statsSentRows db u
  ∧ (∀ d, rec ∉ statsDifficultyRows db u d)
  ∧ (get_user_stats db u).1 = (statsSentRows db u).length
  ∧ (∀ d, (get_user_stats db u).2 d = (statsDifficultyRows db u d).length) := by
  have h2 : rec ∉ statsSentRows db u := by
    intro hin
    have hpred := (List.mem_filter.mp hin).2
    rw [hst] at hpred
    simp at hpred
  exact ⟨fun shuffle hs => selection_excludes_recorded hmem hu shuffle hs,
    h2, fun d hin => h2 (List.mem_filter.mp hin).1, rfl, fun _ => rfl⟩

open DatabaseManager in
/-- Witness for C10 at the store `dbW10`, whose only ledger row is a
failed delivery of problem 1 to user 5. -/
theorem c10_failed_row_excluded_but_uncounted_witness :
    recW10 ∈ dbW10.sent_problems
  ∧ recW10.user_id = 5
  ∧ recW10.email_status = "failed"
  ∧ ((∀ shuffle : List Problem → List Problem, (∀ l, (shuffle l).Perm l) →
        ∀ (d : String) (q : Problem),
          get_unsent_problem_for_user shuffle dbW10 5 d = some q →
          q.id ≠ recW10.problem_id)
  ∧ recW10 ∉ statsSentRows dbW10 5
  ∧ (∀ d, recW10 ∉ statsDifficultyRows dbW10 5 d)
  ∧ (get_user_stats dbW10 5).1 = (statsSentRows dbW10 5).length
  ∧ (∀ d, (get_user_stats dbW10 5).2 d = (statsDifficultyRows dbW10 5 d).length)) :=
  ⟨by decide, rfl, rfl,
   c10_failed_row_excluded_but_uncounted dbW10 5 recW10 (by decide) rfl rfl⟩


open DatabaseManager Coordinator in
/-- C2 (code bug exhibited): re-subscribing the inactive address of
`dbC2` returns `True`, yet the user row is left inactive — the
reactivation branch of `add_user` calls `deactivate_user` — so
`get_active_users` does not contain the address at all afterwards
(the claim expects it exactly once); no duplicate row is created. -/
theorem c2_reactivation_leaves_user_inactive :
    (Coordinator.add_user dbC2 "alice@example.com" "python" "medium").1 = true
  ∧ get_active_users
      (Coordinator.add_user dbC2 "alice@example.com" "python" "medium").2 = []
  ∧ ((Coordinator.add_user dbC2 "alice@example.com" "python" "medium").2.users.map
      User.email) = ["alice@example.com"]
  ∧ (∀ u ∈ (Coordinator.add_user dbC2 "alice@example.com" "python" "medium").2.users,
      u.is_active = false) := by
  decide

open DatabaseManager Coordinator in
/-- C3 (counterexample): with the three active subscribers of `dbC3`
and generation raising for subscriber 2's language, the batch returns
delivered = 2 and failed = 1 as the claim says, but `errors` is empty —
not the claimed one message — because `_process_user_email` swallows
the exception and returns `False`. -/
theorem c3_counterexample_errors_empty :
    (process_daily_emails envC3 dbC3).1.emails_sent = 2
  ∧ (process_daily_emails envC3 dbC3).1.emails_failed = 1
  ∧ (process_daily_emails envC3 dbC3).1.errors = []
  ∧ (process_daily_emails envC3 dbC3).1.total_users = 3 := by
  decide

open DatabaseManager Coordinator in
/-- C3 (amended): a failing subscriber — including one whose processing
raises — never aborts the batch: every active subscriber is counted
into exactly one of `emails_sent` / `emails_failed`; but no message is
ever appended to `errors`, because `_process_user_email` catches all
exceptions internally and returns `False`, so the per-user append
branch of the loop is unreachable and `errors` is always empty. -/
theorem c3_batch_continues_but_errors_stay_empty (env : Env) (db : DBState) :
    (process_daily_emails env db).1.total_users = (get_active_users db).length
  ∧ (process_daily_emails env db).1.emails_sent
      + (process_daily_emails env db).1.emails_failed
      = (get_active_users db).length
  ∧ (process_daily_emails env db).1.errors = [] := by
  have h := process_users_loop_spec env (get_active_users db) db
    { total_users := (get_active_users db).length,
      emails_sent := 0, emails_failed := 0, errors := [] }
  unfold process_daily_emails
  refine ⟨h.2.2, ?_, h.1⟩
  have h21 := h.2.1
  simpa using h21

/-- C6: with any required credential empty, `validate_config` fails and
reports exactly the empty fields, and neither `run_scheduler` nor
`run_once` registers a cron job, starts the scheduler or runs a batch. -/
theorem c6_config_gate_fails_closed (c : Config)
    (h : c.groq_api_key = "" ∨ c.email_address = "" ∨ c.email_password = "") :
    Config.validate_config c = false
  ∧ Config.missing_report c ≠ []
  ∧ (c.groq_api_key = "" ↔ "GROQ_API_KEY" ∈ Config.missing_report c)
  ∧ (c.email_address = "" ↔ "EMAIL_ADDRESS" ∈ Config.missing_report c)
  ∧ (c.email_password = "" ↔ "EMAIL_PASSWORD" ∈ Config.missing_report c)
  ∧ (∀ health_overall start_ok, Main.run_scheduler c health_overall start_ok =
      { cron_registered := false, scheduler_started := false, success := false })
  ∧ (∀ env db, Main.run_once c env db = none) := by
  have hv : Config.validate_config c = false := by
    unfold Config.validate_config
    rcases h with h | h | h <;> simp [h]
  refine ⟨hv, ?_, ?_, ?_, ?_, ?_, ?_⟩
  · unfold Config.missing_report
    rcases h with h | h | h <;> simp [h]
  · unfold Config.missing_report
    by_cases h1 : c.groq_api_key = "" <;>
      by_cases h2 : c.email_address = "" <;>
      by_cases h3 : c.email_password = "" <;>
      simp [h1, h2, h3]
  · unfold Config.missing_report
    by_cases h1 : c.groq_api_key = "" <;>
      by_cases h2 : c.email_address = "" <;>
      by_cases h3 : c.email_password = "" <;>
      simp [h1, h2, h3]
  · unfold Config.missing_report
    by_cases h1 : c.groq_api_key = "" <;>
      by_cases h2 : c.email_address = "" <;>
      by_cases h3 : c.email_password = "" <;>
      simp [h1, h2, h3]
  · intro health_overall start_ok
    unfold Main.run_scheduler
    rw [hv]
    rfl
  · intro env db
    unfold Main.run_once
    rw [hv]
    rfl

/-- Witness for C6 at the configuration `cfgW`, which is missing its
generation-API key. -/
theorem c6_config_gate_fails_closed_witness :
    (cfgW.groq_api_key = "" ∨ cfgW.email_address = "" ∨ cfgW.email_password = "")
  ∧ (Config.validate_config cfgW = false
  ∧ Config.missing_report cfgW ≠ []
  ∧ (cfgW.groq_api_key = "" ↔ "GROQ_API_KEY" ∈ Config.missing_report cfgW)
  ∧ (cfgW.email_address = "" ↔ "EMAIL_ADDRESS" ∈ Config.missing_report cfgW)
  ∧ (cfgW.email_password = "" ↔ "EMAIL_PASSWORD" ∈ Config.missing_report cfgW)
  ∧ (∀ health_overall start_ok, Main.run_scheduler cfgW health_overall start_ok =
      { cron_registered := false, scheduler_started := false, success := false })
  ∧ (∀ env db, Main.run_once cfgW env db = none)) :=
  ⟨Or.inl rfl, c6_config_gate_fails_closed cfgW (Or.inl rfl)⟩

/-- C7: an exception raised by the batch job body is caught by
`_run_daily_job` and turned into a structured failure result — status
`"failed"`, the message in `error` and in `errors` — which is also
stored as `last_run_result`; nothing propagates out of the wrapper. -/
theorem c7_job_wrapper_catches_exceptions (e : String) :
    (DailyScheduler.run_daily_job (.error e)).1.job_status = "failed"
  ∧ (DailyScheduler.run_daily_job (.error e)).1.error = some e
  ∧ (DailyScheduler.run_daily_job (.error e)).1.errors = [e]
  ∧ (DailyScheduler.run_daily_job (.error e)).2
      = some (DailyScheduler.run_daily_job (.error e)).1 :=
  ⟨rfl, rfl, rfl, rfl⟩

open SolveAgent in
/-- C9: on a response with no recognised section header the parser
still returns a result — the whole (stripped) response text as the
explanation and a best-effort fenced-block extraction as the code,
empty when no fence is found; it never fails on unstructured input. -/
theorem c9_parser_tolerant_without_headers (content language : String)
    (h : ∀ line ∈ pySplitLines content, headerOf line = none) :
    parse_solution_response content language =
      { code := extract_code_block content language,
        explanation := pyStrip content,
        time_complexity := "", space_complexity := "", approach := "" } := by
  simp only [parse_solution_response]
  rw [foldl_parseStep_no_header language _ h _ rfl]
  rfl

open SolveAgent in
/-- Witness for C9 on a concrete two-line response with no headers and
no code fence. -/
theorem c9_parser_tolerant_without_headers_witness :
    (∀ line ∈ pySplitLines ("hello" ++ "\n" ++ "world"),
        headerOf line = none)
  ∧ parse_solution_response ("hello" ++ "\n" ++ "world") "python" =
      { code := extract_code_block ("hello" ++ "\n" ++ "world") "python",
        explanation := pyStrip ("hello" ++ "\n" ++ "world"),
        time_complexity := "", space_complexity := "", approach := "" } :=
  ⟨by decide,
   c9_parser_tolerant_without_headers ("hello" ++ "\n" ++ "world") "python" (by decide)⟩
